import Mathlib

/-!
A shallow embedding of `recorder_core.py` from the Enhanced Step Recorder
repository, together with theorems settling the specification claims about
the step-segmentation engine (`StepRecorderCore` and `RecordingSession`).

Modelling conventions:
* wall-clock instants are natural numbers (the code uses `datetime`;
  only differences of instants matter to the claims, so the unit is
  left abstract — the keystroke-grouping comparison uses the same unit
  as `key_grouping_delay`, as in the code's millisecond arithmetic);
* the screenshot primitive of `_capture_and_highlight` is modelled by its
  observable result: on success it produces the path `step_NNNN.png` for the
  current step counter and appends it to `outputs`; operations that the code
  lets raise an exception are modelled with `Except`, the error branch
  carrying the state as mutated up to the raise point;
* characters are modelled in the Basic Latin range: `pyIsPrintable` mirrors
  Python `str.isprintable` there (code points 32..126); every concrete input
  used below stays in that range.
-/

namespace RecorderCore

/-- Python `str.isprintable`, restricted to the Basic Latin range where it
holds exactly for code points 32..126. -/
def pyIsPrintable (c : Char) : Bool :=
  32 ≤ c.toNat && c.toNat ≤ 126

/-- The apostrophe character, which `pynput` uses when rendering a
character key as a string. -/
def pyQuote : String :=
  String.singleton (Char.ofNat 39)

/-- Python `str.title` on the strings arising from pynput key names: an
alphabetic character is uppercased when the previous character is not
alphabetic, and lowercased otherwise. -/
def pyTitleAux : List Char → Bool → List Char
  | [], _ => []
  | c :: cs, prevCased =>
    (if c.isAlpha then (if prevCased then c.toLower else c.toUpper) else c)
      :: pyTitleAux cs c.isAlpha

/-- Python `str.title` (see `pyTitleAux`). -/
def pyTitle (s : String) : String :=
  String.mk (pyTitleAux s.data false)

/-- Python `str.replace` on character lists: every occurrence of the
non-empty pattern `pat` is replaced by `repl`, scanning left to right.
The fuel argument starts at the input length; a non-empty match consumes
at least one character per fuel unit, so the fuel never runs out before
the input does. -/
def pyReplaceAux (pat repl : List Char) : Nat → List Char → List Char
  | _, [] => []
  | 0, l => l
  | fuel + 1, c :: cs =>
    if pat ≠ [] ∧ (c :: cs).take pat.length = pat then
      repl ++ pyReplaceAux pat repl fuel ((c :: cs).drop pat.length)
    else
      c :: pyReplaceAux pat repl fuel cs

/-- Python `str.replace` (see `pyReplaceAux`). -/
def pyReplace (s pat repl : String) : String :=
  String.mk (pyReplaceAux pat.data repl.data s.data.length s.data)

/-- A pynput key as the recorder sees it: either a key whose `char`
attribute is a character, or a special key `Key.<name>`. -/
inductive PyKey where
  | char (c : Char)
  | special (name : String)
deriving DecidableEq, Repr

/-- Python `str(key)`: pynput renders a character key wrapped in
apostrophes, and a special key as `Key.<name>`. -/
def pyStrKey : PyKey → String
  | .char c => pyQuote ++ String.singleton c ++ pyQuote
  | .special n => "Key." ++ n

/-- The lookup table of `StepRecorderCore._key_to_name`. -/
def key_mapping : List (String × String) :=
  [("Enter", "Enter"), ("Space", "Space"), ("Tab", "Tab"),
   ("Backspace", "Backspace"), ("Delete", "Delete"), ("Escape", "Escape"),
   ("Shift", "Shift"), ("Shift_L", "Shift"), ("Shift_R", "Shift"),
   ("Ctrl", "Ctrl"), ("Ctrl_L", "Ctrl"), ("Ctrl_R", "Ctrl"),
   ("Alt", "Alt"), ("Alt_L", "Alt"), ("Alt_R", "Alt"),
   ("Up", "Up Arrow"), ("Down", "Down Arrow"),
   ("Left", "Left Arrow"), ("Right", "Right Arrow")]

/-- Faithful translation of `StepRecorderCore._key_to_name`: a character key
renders as `"Space"` for the space character, as the character itself when
printable, and as `Char(<ordinal>)` otherwise; any other key renders via
`str(key)` with the `Key.` marker and apostrophes removed, title-cased, and
then looked up in `key_mapping` (defaulting to itself). -/
def key_to_name (key : PyKey) : String :=
  match key with
  | .char c =>
    if c = ' ' then "Space"
    else if pyIsPrintable c then String.singleton c
    else "Char(" ++ toString c.toNat ++ ")"
  | .special _ =>
    let key_str := pyTitle (pyReplace (pyReplace (pyStrKey key) "Key." "") pyQuote "")
    match key_mapping.find? (fun p => p.1 == key_str) with
    | some p => p.2
    | none => key_str

/-- Faithful translation of `StepRecorderCore._is_safe_for_xml`: the empty
string is rejected; otherwise every character must avoid the control range
below 32 (tab, newline and carriage return excepted) and must be printable
when above 127. -/
def is_safe_for_xml (text : String) : Bool :=
  if text = "" then false
  else text.data.all (fun c =>
    !(c.toNat < 32 && !(c = Char.ofNat 9 || c = Char.ofNat 10 || c = Char.ofNat 13)) &&
    !(c.toNat > 127 && !pyIsPrintable c))

/-- The rendered names that the first pass of `_keystrokes_to_text` drops. -/
def dropped_names : List String :=
  ["Char(19)", "Ctrl_L", "Shift_L", "Alt_L"]

/-- The rendered names that the fallback pass of `_keystrokes_to_text`
recognises as special keys. -/
def special_names : List String :=
  ["Enter", "Space", "Tab", "Backspace", "Delete", "Escape"]

/-- The per-name filter of the first pass of `_keystrokes_to_text`. -/
def keeps_name (n : String) : Bool :=
  is_safe_for_xml n && !(dropped_names.contains n)

/-- Faithful translation of `StepRecorderCore._keystrokes_to_text`: render
every key via `_key_to_name`, keep the XML-safe names outside the drop list
and concatenate them; when nothing survives, report `"Pressed: <names>"` for
the recognised special names, or `"Special keys pressed"` when there are
none of those either. -/
def keystrokes_to_text (keystrokes : List PyKey) : String :=
  let text_parts := (keystrokes.map key_to_name).filter keeps_name
  if text_parts = [] then
    let special_keys := (keystrokes.map key_to_name).filter (fun n => special_names.contains n)
    if special_keys ≠ [] then "Pressed: " ++ String.intercalate ", " special_keys
    else "Special keys pressed"
  else
    String.join text_parts

/-- The kind tag stored in a step dictionary's `type` field. -/
inductive StepType where
  | click
  | keystroke
  | note
deriving DecidableEq, Repr

/-- One step dictionary as built by `_record_click`,
`_record_keystroke_group` and `add_note`; fields that a given kind does not
set are `none` (respectively `[]` for the `keystrokes` list). -/
structure StepData where
  step_number : Nat
  timestamp : Nat
  type : StepType
  content : String
  application : String
  screenshot : Option String
  coordinates : Option (Int × Int)
  button : Option String
  keystrokes : List String
deriving DecidableEq, Repr

/-- The `statistics` dictionary of a `RecordingSession`; the
`applications` set is modelled as a duplicate-free insertion list. -/
structure Statistics where
  clicks : Nat
  keystrokes : Nat
  notes : Nat
  applications : List String
  total_steps : Nat
  recording_duration : Nat
deriving DecidableEq, Repr

/-- The statistics dictionary as initialised by `RecordingSession.__init__`
and re-assigned by `start_recording`. -/
def Statistics.init : Statistics :=
  { clicks := 0, keystrokes := 0, notes := 0, applications := [],
    total_steps := 0, recording_duration := 0 }

/-- Python `set.add` on the insertion-list model of a set. -/
def addApplication (l : List String) (a : String) : List String :=
  if a ∈ l then l else l ++ [a]

/-- Faithful translation of the `RecordingSession` data class. -/
structure RecordingSession where
  start_time : Option Nat
  end_time : Option Nat
  steps : List StepData
  screenshots : List String
  statistics : Statistics
deriving DecidableEq, Repr

/-- A fresh `RecordingSession()`. -/
def RecordingSession.init : RecordingSession :=
  { start_time := none, end_time := none, steps := [], screenshots := [],
    statistics := Statistics.init }

/-- One `("click", x, y, button)` tuple in the event queue. -/
structure QueueItem where
  x : Int
  y : Int
  button : String
deriving DecidableEq, Repr

/-- Faithful translation of the mutable state of `StepRecorderCore`
(listener and callback handles carry no modelled state). -/
structure StepRecorderCore where
  recording : Bool
  paused : Bool
  step : Nat
  start_time : Option Nat
  queue : List QueueItem
  outputs : List String
  last_click : Int × Int
  current_keystrokes : List PyKey
  last_key_time : Nat
  key_grouping_delay : Nat
  session : RecordingSession
  timer_running : Bool
deriving DecidableEq, Repr

/-- The state built by `StepRecorderCore.__init__`. -/
def StepRecorderCore.init : StepRecorderCore :=
  { recording := false, paused := false, step := 0, start_time := none,
    queue := [], outputs := [], last_click := (100, 100),
    current_keystrokes := [], last_key_time := 0, key_grouping_delay := 1000,
    session := RecordingSession.init, timer_running := false }

/-- Translation of `get_active_window_title` on the `win32gui is None`
path, which always yields the fallback title. -/
def get_active_window_title : String := "Unknown App"

/-- Python `f"\x7bstep:04d\x7d"`: the step counter zero-padded to at least
four digits. -/
def padZeros4 (n : Nat) : String :=
  let s := toString n
  if s.length ≥ 4 then s
  else String.mk (List.replicate (4 - s.length) (Char.ofNat 48)) ++ s

/-- The screenshot path produced by `_capture_and_highlight` for step
counter value `step` (the absolute-path prefix is not modelled). -/
def capturePath (step : Nat) : String :=
  "step_" ++ padZeros4 step ++ ".png"

namespace StepRecorderCore

/-- Faithful translation of `_record_click`, parametrised by the outcome of
the `_capture_and_highlight` call: on `Except.error` the screen grab raises
and the exception propagates, leaving the state as mutated up to that point
(step counter and click statistics already incremented, no step appended);
on `Except.ok img` the step dictionary is appended together with the
screenshot bookkeeping. -/
def record_click_capture (c : StepRecorderCore) (x y : Int) (button : String)
    (now : Nat) (capture : Except Unit String) :
    Except StepRecorderCore StepRecorderCore :=
  let stats := c.session.statistics
  let c1 : StepRecorderCore :=
    { c with step := c.step + 1,
             session := { c.session with statistics :=
               { stats with total_steps := stats.total_steps + 1,
                            clicks := stats.clicks + 1 } } }
  match capture with
  | .error _ => .error c1
  | .ok img =>
    let sd : StepData :=
      { step_number := c1.step, timestamp := now, type := .click,
        content := "Click " ++ button ++ " at (" ++ toString x ++ "," ++ toString y ++ ")",
        application := get_active_window_title,
        screenshot := some img, coordinates := some (x, y),
        button := some button, keystrokes := [] }
    let c2 : StepRecorderCore := { c1 with outputs := c1.outputs ++ [img] }
    .ok { c2 with session :=
      { c2.session with
          steps := c2.session.steps ++ [sd],
          screenshots := c2.session.screenshots ++ [img],
          statistics := { c2.session.statistics with
            applications := addApplication c2.session.statistics.applications sd.application } } }

/-- The normal-operation `_record_click`, in which the screen grab succeeds
and yields the path for the already incremented step counter. -/
def record_click (c : StepRecorderCore) (x y : Int) (button : String)
    (now : Nat) : StepRecorderCore :=
  match record_click_capture c x y button now (.ok (capturePath (c.step + 1))) with
  | .ok c2 => c2
  | .error c2 => c2

/-- Faithful translation of `_record_keystroke_group`, parametrised by the
outcome of the `_capture_and_highlight` call exactly as
`record_click_capture` is. -/
def record_keystroke_group_capture (c : StepRecorderCore) (now : Nat)
    (capture : Except Unit String) :
    Except StepRecorderCore StepRecorderCore :=
  if c.current_keystrokes = [] then .ok c
  else
    let stats := c.session.statistics
    let c1 : StepRecorderCore :=
      { c with step := c.step + 1,
               session := { c.session with statistics :=
                 { stats with total_steps := stats.total_steps + 1,
                              keystrokes := stats.keystrokes + c.current_keystrokes.length } } }
    match capture with
    | .error _ => .error c1
    | .ok img =>
      let sd : StepData :=
        { step_number := c1.step, timestamp := now, type := .keystroke,
          content := keystrokes_to_text c.current_keystrokes,
          application := get_active_window_title,
          screenshot := some img, coordinates := some c.last_click,
          button := none, keystrokes := c.current_keystrokes.map pyStrKey }
      let c2 : StepRecorderCore := { c1 with outputs := c1.outputs ++ [img] }
      .ok { c2 with
        session := { c2.session with
          steps := c2.session.steps ++ [sd],
          screenshots := c2.session.screenshots ++ [img],
          statistics := { c2.session.statistics with
            applications := addApplication c2.session.statistics.applications sd.application } },
        current_keystrokes := [] }

/-- The normal-operation `_record_keystroke_group` with successful capture. -/
def record_keystroke_group (c : StepRecorderCore) (now : Nat) : StepRecorderCore :=
  match record_keystroke_group_capture c now (.ok (capturePath (c.step + 1))) with
  | .ok c2 => c2
  | .error c2 => c2

/-- Faithful translation of `_on_click` (normal capture): on a press while
recording and not paused, a pending keystroke group is recorded first, the
click position is remembered and the click tuple is enqueued. -/
def on_click (c : StepRecorderCore) (x y : Int) (button : String)
    (pressed : Bool) (now : Nat) : StepRecorderCore :=
  if pressed && c.recording && !c.paused then
    let c1 := if c.current_keystrokes ≠ [] then c.record_keystroke_group now else c
    { c1 with last_click := (x, y), queue := c1.queue ++ [⟨x, y, button⟩] }
  else c

/-- Faithful translation of `_on_key_release` (normal capture): ignored
unless recording and not paused; a pending group older than the grouping
delay is recorded first, then the key is appended to the current group. -/
def on_key_release (c : StepRecorderCore) (key : PyKey) (now : Nat) : StepRecorderCore :=
  if !c.recording || c.paused then c
  else
    let c1 :=
      if c.current_keystrokes ≠ [] && decide (c.key_grouping_delay < now - c.last_key_time) then
        c.record_keystroke_group now
      else c
    { c1 with current_keystrokes := c1.current_keystrokes ++ [key], last_key_time := now }

/-- One `while not queue.empty()` drain of `process_queue` over an explicit
item list. -/
def process_queue_items (now : Nat) : StepRecorderCore → List QueueItem → StepRecorderCore
  | c, [] => c
  | c, it :: rest => process_queue_items now (c.record_click it.x it.y it.button now) rest

/-- Faithful translation of `process_queue` (normal capture): every queued
click tuple is dequeued and recorded in order. -/
def process_queue (c : StepRecorderCore) (now : Nat) : StepRecorderCore :=
  process_queue_items now { c with queue := [] } c.queue

/-- Faithful translation of `start_recording`, parametrised by whether the
pynput listeners start: when already recording it returns `False`
unchanged; otherwise the per-session state is reset, and on listener
failure the exception is re-raised (the `Except.error` branch) after
`recording` has been put back to `False`. -/
def start_recording (c : StepRecorderCore) (now : Nat) (listeners_ok : Bool) :
    Except String Bool × StepRecorderCore :=
  if c.recording then (.ok false, c)
  else
    let c1 : StepRecorderCore :=
      { c with recording := true, paused := false, step := 0,
               start_time := some now,
               session := { RecordingSession.init with
                 start_time := some now, statistics := Statistics.init } }
    if !listeners_ok then
      (.error "Failed to start listeners", { c1 with recording := false })
    else
      (.ok true, { c1 with timer_running := true })

/-- Faithful translation of `stop_recording` (normal capture): `False` when
not recording; otherwise any pending keystroke group is recorded, the
session end time is set, the final duration is stored as end minus start,
and the timer and listeners are stopped. -/
def stop_recording (c : StepRecorderCore) (now : Nat) : Bool × StepRecorderCore :=
  if !c.recording then (false, c)
  else
    let c1 := if c.current_keystrokes ≠ [] then c.record_keystroke_group now else c
    let sess := { c1.session with end_time := some now }
    let sess2 :=
      match sess.start_time with
      | some st =>
        { sess with statistics :=
          { sess.statistics with recording_duration := now - st } }
      | none => sess
    (true, { c1 with recording := false, paused := false, session := sess2,
                     timer_running := false })

/-- Faithful translation of `pause_recording`: `False` when not recording;
otherwise sets `paused` and stops the timer. -/
def pause_recording (c : StepRecorderCore) : Bool × StepRecorderCore :=
  if !c.recording then (false, c)
  else (true, { c with paused := true, timer_running := false })

/-- Faithful translation of `resume_recording`: `False` when not recording;
otherwise clears `paused` and restarts the timer. -/
def resume_recording (c : StepRecorderCore) : Bool × StepRecorderCore :=
  if !c.recording then (false, c)
  else (true, { c with paused := false, timer_running := true })

/-- Faithful translation of `add_note`: `False` when not recording;
otherwise the step counter, total and note statistics are incremented and a
note step with no screenshot is appended. -/
def add_note (c : StepRecorderCore) (note_text : String) (now : Nat) :
    Bool × StepRecorderCore :=
  if !c.recording then (false, c)
  else
    let stats := c.session.statistics
    let sd : StepData :=
      { step_number := c.step + 1, timestamp := now, type := .note,
        content := note_text, application := get_active_window_title,
        screenshot := none, coordinates := none, button := none,
        keystrokes := [] }
    (true, { c with step := c.step + 1,
                    session := { c.session with
                      steps := c.session.steps ++ [sd],
                      statistics := { stats with
                        total_steps := stats.total_steps + 1,
                        notes := stats.notes + 1 } } })

/-- Faithful translation of `get_recording_duration`: zero before a start
time exists, the last stored duration while paused, and wall-clock time
since start otherwise. -/
def get_recording_duration (c : StepRecorderCore) (now : Nat) : Nat :=
  match c.start_time with
  | none => 0
  | some st =>
    if c.paused then c.session.statistics.recording_duration
    else now - st

/-- One iteration of the body of `_timer_loop`: while the timer runs and
recording is on and not paused, the current duration is written into the
statistics; the loop takes no other action. -/
def timer_tick (c : StepRecorderCore) (now : Nat) : StepRecorderCore :=
  if c.timer_running && c.recording && !c.paused then
    { c with session := { c.session with statistics :=
        { c.session.statistics with
            recording_duration := c.get_recording_duration now } } }
  else c

end StepRecorderCore

/-- An observable operation on the recorder during one session: raw input
callbacks, queue processing, note taking, pause and resume, stop, and timer
iterations.  Each constructor that reads the clock carries the instant at
which it runs. -/
inductive REvent where
  | click (x y : Int) (button : String) (now : Nat)
  | key (k : PyKey) (now : Nat)
  | note (text : String) (now : Nat)
  | processQueue (now : Nat)
  | pause
  | resume
  | stop (now : Nat)
  | tick (now : Nat)
deriving Repr

/-- Dispatch one `REvent` to the translated operation it names. -/
def stepEvent (c : StepRecorderCore) (e : REvent) : StepRecorderCore :=
  match e with
  | .click x y b now => c.on_click x y b true now
  | .key k now => c.on_key_release k now
  | .note t now => (c.add_note t now).2
  | .processQueue now => c.process_queue now
  | .pause => c.pause_recording.2
  | .resume => c.resume_recording.2
  | .stop now => (c.stop_recording now).2
  | .tick now => c.timer_tick now

/-- Run a sequence of recorder operations from a state. -/
def run (c : StepRecorderCore) (evs : List REvent) : StepRecorderCore :=
  evs.foldl stepEvent c

/-- Number of steps of a given kind in a step list. -/
def countType (t : StepType) (steps : List StepData) : Nat :=
  (steps.filter (fun s => s.type == t)).length

/-- Total number of individual key events carried by the keystroke-group
steps of a step list. -/
def keyEventsInGroups (steps : List StepData) : Nat :=
  ((steps.filter (fun s => s.type == StepType.keystroke)).map
    (fun s => s.keystrokes.length)).sum

theorem countType_append (t : StepType) (l1 l2 : List StepData) :
    countType t (l1 ++ l2) = countType t l1 + countType t l2 := by
  simp [countType, List.filter_append]

theorem countType_single (t : StepType) (sd : StepData) :
    countType t [sd] = if sd.type = t then 1 else 0 := by
  by_cases h : sd.type = t
  · simp [countType, List.filter, h]
  · have hb : (sd.type == t) = false := beq_eq_false_iff_ne.mpr h
    simp [countType, List.filter, hb, h]

theorem keyEventsInGroups_append (l1 l2 : List StepData) :
    keyEventsInGroups (l1 ++ l2) = keyEventsInGroups l1 + keyEventsInGroups l2 := by
  simp [keyEventsInGroups, List.filter_append]

theorem keyEventsInGroups_single (sd : StepData) :
    keyEventsInGroups [sd]
      = if sd.type = StepType.keystroke then sd.keystrokes.length else 0 := by
  by_cases h : sd.type = StepType.keystroke
  · simp [keyEventsInGroups, List.filter, h]
  · have hb : (sd.type == StepType.keystroke) = false := beq_eq_false_iff_ne.mpr h
    simp [keyEventsInGroups, List.filter, hb, h]

/-- The session bookkeeping invariant maintained by every recorder
operation: the step counter equals the number of recorded steps, the
recorded step numbers are exactly `1..N` in order, and every statistics
counter agrees with the step list. -/
structure Inv (c : StepRecorderCore) : Prop where
  stepEq : c.step = c.session.steps.length
  nums : c.session.steps.map StepData.step_number
           = List.range' 1 c.session.steps.length
  total : c.session.statistics.total_steps = c.session.steps.length
  clicksEq : c.session.statistics.clicks = countType .click c.session.steps
  notesEq : c.session.statistics.notes = countType .note c.session.steps
  keysEq : c.session.statistics.keystrokes = keyEventsInGroups c.session.steps

/-- Appending one step whose number is the incremented counter and whose
kind matches the statistics increments preserves the invariant. -/
theorem Inv.append {c c2 : StepRecorderCore} (sd : StepData) (hInv : Inv c)
    (hsteps : c2.session.steps = c.session.steps ++ [sd])
    (hstep : c2.step = c.step + 1)
    (hnum : sd.step_number = c.step + 1)
    (htotal : c2.session.statistics.total_steps
      = c.session.statistics.total_steps + 1)
    (hclicks : c2.session.statistics.clicks
      = c.session.statistics.clicks + (if sd.type = .click then 1 else 0))
    (hnotes : c2.session.statistics.notes
      = c.session.statistics.notes + (if sd.type = .note then 1 else 0))
    (hkeys : c2.session.statistics.keystrokes
      = c.session.statistics.keystrokes
        + (if sd.type = .keystroke then sd.keystrokes.length else 0)) :
    Inv c2 := by
  obtain ⟨h1, h2, h3, h4, h5, h6⟩ := hInv
  refine ⟨?_, ?_, ?_, ?_, ?_, ?_⟩
  · simp [hsteps, hstep, h1]
  · simp only [hsteps, List.map_append, List.length_append, List.map_cons,
      List.map_nil, List.length_cons, List.length_nil]
    rw [h2, hnum, h1]
    have := List.range'_1_concat 1 c.session.steps.length
    simpa [Nat.add_comm] using this.symm
  · simp [hsteps, htotal, h3]
  · simp [hsteps, hclicks, h4, countType_append, countType_single]
  · simp [hsteps, hnotes, h5, countType_append, countType_single]
  · simp [hsteps, hkeys, h6, keyEventsInGroups_append, keyEventsInGroups_single]

/-- A state change that leaves the step list, the step counter and the
statistics counters untouched preserves the invariant. -/
theorem Inv.congr {c c2 : StepRecorderCore} (hInv : Inv c)
    (hsteps : c2.session.steps = c.session.steps)
    (hstep : c2.step = c.step)
    (htotal : c2.session.statistics.total_steps
      = c.session.statistics.total_steps)
    (hclicks : c2.session.statistics.clicks = c.session.statistics.clicks)
    (hnotes : c2.session.statistics.notes = c.session.statistics.notes)
    (hkeys : c2.session.statistics.keystrokes
      = c.session.statistics.keystrokes) :
    Inv c2 := by
  obtain ⟨h1, h2, h3, h4, h5, h6⟩ := hInv
  exact ⟨by rw [hsteps, hstep, h1], by rw [hsteps, h2],
         by rw [hsteps, htotal, h3], by rw [hsteps, hclicks, h4],
         by rw [hsteps, hnotes, h5], by rw [hsteps, hkeys, h6]⟩

theorem Inv_record_click {c : StepRecorderCore} (hInv : Inv c)
    (x y : Int) (b : String) (now : Nat) :
    Inv (c.record_click x y b now) :=
  hInv.append _ rfl rfl rfl rfl
    (by simp [StepRecorderCore.record_click, StepRecorderCore.record_click_capture])
    (by simp [StepRecorderCore.record_click, StepRecorderCore.record_click_capture])
    (by simp [StepRecorderCore.record_click, StepRecorderCore.record_click_capture])

theorem Inv_record_keystroke_group {c : StepRecorderCore} (hInv : Inv c)
    (now : Nat) : Inv (c.record_keystroke_group now) := by
  by_cases h : c.current_keystrokes = []
  · have : c.record_keystroke_group now = c := by
      simp [StepRecorderCore.record_keystroke_group,
        StepRecorderCore.record_keystroke_group_capture, h]
    rwa [this]
  · refine hInv.append
      { step_number := c.step + 1, timestamp := now, type := .keystroke,
        content := keystrokes_to_text c.current_keystrokes,
        application := get_active_window_title,
        screenshot := some (capturePath (c.step + 1)),
        coordinates := some c.last_click, button := none,
        keystrokes := c.current_keystrokes.map pyStrKey }
      ?_ ?_ ?_ ?_ ?_ ?_ ?_ <;>
    simp [StepRecorderCore.record_keystroke_group,
      StepRecorderCore.record_keystroke_group_capture, h]

theorem Inv_add_note {c : StepRecorderCore} (hInv : Inv c)
    (text : String) (now : Nat) : Inv (c.add_note text now).2 := by
  by_cases h : c.recording = true
  · refine hInv.append
      { step_number := c.step + 1, timestamp := now, type := .note,
        content := text, application := get_active_window_title,
        screenshot := none, coordinates := none, button := none,
        keystrokes := [] }
      ?_ ?_ ?_ ?_ ?_ ?_ ?_ <;> simp [StepRecorderCore.add_note, h]
  · have : (c.add_note text now).2 = c := by
      simp [StepRecorderCore.add_note, h]
    rwa [this]

/-- The keystroke-group flush is the identity when no group is open. -/
theorem record_keystroke_group_nil {c : StepRecorderCore}
    (h : c.current_keystrokes = []) (now : Nat) :
    c.record_keystroke_group now = c := by
  simp [StepRecorderCore.record_keystroke_group,
    StepRecorderCore.record_keystroke_group_capture, h]

/-- A conditional flush of the keystroke group preserves the invariant. -/
theorem Inv_if_flush {c : StepRecorderCore} (hInv : Inv c) (p : Prop)
    [Decidable p] (now : Nat) :
    Inv (if p then c.record_keystroke_group now else c) := by
  by_cases h : p
  · simpa [h] using Inv_record_keystroke_group hInv now
  · simpa [h] using hInv

theorem Inv_on_click {c : StepRecorderCore} (hInv : Inv c)
    (x y : Int) (b : String) (pressed : Bool) (now : Nat) :
    Inv (c.on_click x y b pressed now) := by
  by_cases hg : pressed && c.recording && !c.paused
  · refine (Inv_if_flush hInv (c.current_keystrokes ≠ []) now).congr
      ?_ ?_ ?_ ?_ ?_ ?_ <;> simp [StepRecorderCore.on_click, hg]
  · have : c.on_click x y b pressed now = c := by
      simp [StepRecorderCore.on_click, hg]
    rwa [this]

theorem Inv_on_key_release {c : StepRecorderCore} (hInv : Inv c)
    (k : PyKey) (now : Nat) : Inv (c.on_key_release k now) := by
  by_cases hg : !c.recording || c.paused
  · have : c.on_key_release k now = c := by
      simp [StepRecorderCore.on_key_release, hg]
    rwa [this]
  · by_cases hk : c.current_keystrokes ≠ []
        ∧ c.key_grouping_delay < now - c.last_key_time
    · refine (Inv_record_keystroke_group hInv now).congr ?_ ?_ ?_ ?_ ?_ ?_ <;>
        simp [StepRecorderCore.on_key_release, hg, hk.1, hk.2]
    · refine hInv.congr ?_ ?_ ?_ ?_ ?_ ?_ <;>
        simp [StepRecorderCore.on_key_release, hg, hk]

theorem Inv_process_queue_items {c : StepRecorderCore} (hInv : Inv c)
    (items : List QueueItem) (now : Nat) :
    Inv (StepRecorderCore.process_queue_items now c items) := by
  induction items generalizing c with
  | nil => exact hInv
  | cons it rest ih =>
    exact ih (Inv_record_click hInv it.x it.y it.button now)

theorem Inv_process_queue {c : StepRecorderCore} (hInv : Inv c) (now : Nat) :
    Inv (c.process_queue now) := by
  have h0 : Inv { c with queue := ([] : List QueueItem) } :=
    hInv.congr rfl rfl rfl rfl rfl rfl
  exact Inv_process_queue_items h0 c.queue now

theorem Inv_pause {c : StepRecorderCore} (hInv : Inv c) :
    Inv c.pause_recording.2 := by
  by_cases h : c.recording <;>
    refine hInv.congr ?_ ?_ ?_ ?_ ?_ ?_ <;>
      simp [StepRecorderCore.pause_recording, h]

theorem Inv_resume {c : StepRecorderCore} (hInv : Inv c) :
    Inv c.resume_recording.2 := by
  by_cases h : c.recording <;>
    refine hInv.congr ?_ ?_ ?_ ?_ ?_ ?_ <;>
      simp [StepRecorderCore.resume_recording, h]

theorem Inv_tick {c : StepRecorderCore} (hInv : Inv c) (now : Nat) :
    Inv (c.timer_tick now) := by
  by_cases h : (c.timer_running && c.recording && !c.paused) = true <;>
    refine hInv.congr ?_ ?_ ?_ ?_ ?_ ?_ <;>
      simp [StepRecorderCore.timer_tick, h]

theorem Inv_stop {c : StepRecorderCore} (hInv : Inv c) (now : Nat) :
    Inv (c.stop_recording now).2 := by
  by_cases h : c.recording
  · have hflush := Inv_if_flush hInv (c.current_keystrokes ≠ []) now
    refine hflush.congr ?_ ?_ ?_ ?_ ?_ ?_ <;>
      simp only [StepRecorderCore.stop_recording, h, Bool.not_true,
        Bool.false_eq_true, if_false] <;>
      (cases hst : (if c.current_keystrokes ≠ []
          then c.record_keystroke_group now else c).session.start_time <;>
        simp [hst])
  · refine hInv.congr ?_ ?_ ?_ ?_ ?_ ?_ <;>
      simp [StepRecorderCore.stop_recording, h]

theorem Inv_stepEvent {c : StepRecorderCore} (hInv : Inv c) (e : REvent) :
    Inv (stepEvent c e) := by
  cases e with
  | click x y b now => exact Inv_on_click hInv x y b true now
  | key k now => exact Inv_on_key_release hInv k now
  | note t now => exact Inv_add_note hInv t now
  | processQueue now => exact Inv_process_queue hInv now
  | pause => exact Inv_pause hInv
  | resume => exact Inv_resume hInv
  | stop now => exact Inv_stop hInv now
  | tick now => exact Inv_tick hInv now

theorem Inv_run {c : StepRecorderCore} (hInv : Inv c) (evs : List REvent) :
    Inv (run c evs) := by
  induction evs generalizing c with
  | nil => exact hInv
  | cons e rest ih => exact ih (Inv_stepEvent hInv e)

theorem Inv_start {c : StepRecorderCore} (h : c.recording = false)
    (now : Nat) (ok : Bool) : Inv (c.start_recording now ok).2 := by
  by_cases hok : ok = true <;>
    refine ⟨?_, ?_, ?_, ?_, ?_, ?_⟩ <;>
      simp [StepRecorderCore.start_recording, h, hok, RecordingSession.init,
        Statistics.init, countType, keyEventsInGroups]

/-- The append-only relation between an earlier and a later recorder state:
the step list has only grown, every appended step carries a step number
above the earlier counter, and the counter has not decreased.  It holds
along every in-session operation (session start is excluded, as it resets
the session). -/
def StepsMono (c c2 : StepRecorderCore) : Prop :=
  c.step ≤ c2.step ∧
  ∃ rest, c2.session.steps = c.session.steps ++ rest ∧
    ∀ s ∈ rest, c.step < s.step_number

theorem StepsMono.refl (c : StepRecorderCore) : StepsMono c c :=
  ⟨Nat.le_refl _, [], by simp, by simp⟩

theorem StepsMono.trans {a b c : StepRecorderCore}
    (h1 : StepsMono a b) (h2 : StepsMono b c) : StepsMono a c := by
  obtain ⟨hle1, r1, he1, hr1⟩ := h1
  obtain ⟨hle2, r2, he2, hr2⟩ := h2
  refine ⟨Nat.le_trans hle1 hle2, r1 ++ r2, by simp [he2, he1], ?_⟩
  intro s hs
  rcases List.mem_append.mp hs with h | h
  · exact hr1 s h
  · exact Nat.lt_of_le_of_lt hle1 (hr2 s h)

theorem StepsMono.ofEq {c c2 : StepRecorderCore}
    (hsteps : c2.session.steps = c.session.steps)
    (hstep : c.step ≤ c2.step) : StepsMono c c2 :=
  ⟨hstep, [], by simp [hsteps], by simp⟩

theorem stepsMono_record_click (c : StepRecorderCore) (x y : Int)
    (b : String) (now : Nat) : StepsMono c (c.record_click x y b now) := by
  refine ⟨?_, _, rfl, ?_⟩
  · have : (c.record_click x y b now).step = c.step + 1 := rfl
    omega
  · intro s hs
    obtain rfl := List.mem_singleton.mp hs
    exact Nat.lt_succ_self c.step

theorem stepsMono_record_keystroke_group (c : StepRecorderCore) (now : Nat) :
    StepsMono c (c.record_keystroke_group now) := by
  by_cases h : c.current_keystrokes = []
  · rw [record_keystroke_group_nil h now]
    exact StepsMono.refl c
  · refine ⟨?_, ([⟨c.step + 1, now, .keystroke,
      keystrokes_to_text c.current_keystrokes, get_active_window_title,
      some (capturePath (c.step + 1)), some c.last_click, none,
      c.current_keystrokes.map pyStrKey⟩] : List StepData), ?_, ?_⟩
    · have : (c.record_keystroke_group now).step = c.step + 1 := by
        simp [StepRecorderCore.record_keystroke_group,
          StepRecorderCore.record_keystroke_group_capture, h]
      omega
    · simp [StepRecorderCore.record_keystroke_group,
        StepRecorderCore.record_keystroke_group_capture, h]
    · intro s hs
      obtain rfl := List.mem_singleton.mp hs
      exact Nat.lt_succ_self c.step

theorem stepsMono_if_flush (c : StepRecorderCore) (p : Prop) [Decidable p]
    (now : Nat) :
    StepsMono c (if p then c.record_keystroke_group now else c) := by
  by_cases h : p
  · simpa [h] using stepsMono_record_keystroke_group c now
  · simpa [h] using StepsMono.refl c

theorem stepsMono_add_note (c : StepRecorderCore) (text : String)
    (now : Nat) : StepsMono c (c.add_note text now).2 := by
  by_cases h : c.recording = true
  · refine ⟨?_, ([⟨c.step + 1, now, .note, text,
      get_active_window_title, none, none, none, []⟩] : List StepData),
      ?_, ?_⟩
    · have : (c.add_note text now).2.step = c.step + 1 := by
        simp [StepRecorderCore.add_note, h]
      omega
    · simp [StepRecorderCore.add_note, h]
    · intro s hs
      obtain rfl := List.mem_singleton.mp hs
      exact Nat.lt_succ_self c.step
  · have : (c.add_note text now).2 = c := by
      simp [StepRecorderCore.add_note, h]
    rw [this]; exact StepsMono.refl c

theorem stepsMono_on_click (c : StepRecorderCore) (x y : Int) (b : String)
    (pressed : Bool) (now : Nat) :
    StepsMono c (c.on_click x y b pressed now) := by
  by_cases hg : (pressed && c.recording && !c.paused) = true
  · refine (stepsMono_if_flush c (c.current_keystrokes ≠ []) now).trans
      (StepsMono.ofEq ?_ ?_) <;>
      simp [StepRecorderCore.on_click, hg]
  · have : c.on_click x y b pressed now = c := by
      simp [StepRecorderCore.on_click, hg]
    rw [this]; exact StepsMono.refl c

theorem stepsMono_on_key_release (c : StepRecorderCore) (k : PyKey)
    (now : Nat) : StepsMono c (c.on_key_release k now) := by
  by_cases hg : (!c.recording || c.paused) = true
  · have : c.on_key_release k now = c := by
      simp [StepRecorderCore.on_key_release, hg]
    rw [this]; exact StepsMono.refl c
  · by_cases hk : c.current_keystrokes ≠ []
        ∧ c.key_grouping_delay < now - c.last_key_time
    · refine (stepsMono_record_keystroke_group c now).trans
        (StepsMono.ofEq ?_ ?_) <;>
        simp [StepRecorderCore.on_key_release, hg, hk.1, hk.2]
    · refine StepsMono.ofEq ?_ ?_ <;>
        simp [StepRecorderCore.on_key_release, hg, hk]

theorem stepsMono_process_queue_items (c : StepRecorderCore)
    (items : List QueueItem) (now : Nat) :
    StepsMono c (StepRecorderCore.process_queue_items now c items) := by
  induction items generalizing c with
  | nil => exact StepsMono.refl c
  | cons it rest ih =>
    exact (stepsMono_record_click c it.x it.y it.button now).trans
      (ih (c.record_click it.x it.y it.button now))

theorem stepsMono_process_queue (c : StepRecorderCore) (now : Nat) :
    StepsMono c (c.process_queue now) := by
  have h1 : StepsMono c { c with queue := ([] : List QueueItem) } :=
    StepsMono.ofEq rfl (Nat.le_refl _)
  exact h1.trans (stepsMono_process_queue_items _ c.queue now)

theorem stepsMono_pause (c : StepRecorderCore) :
    StepsMono c c.pause_recording.2 := by
  by_cases h : c.recording <;>
    refine StepsMono.ofEq ?_ ?_ <;>
      simp [StepRecorderCore.pause_recording, h]

theorem stepsMono_resume (c : StepRecorderCore) :
    StepsMono c c.resume_recording.2 := by
  by_cases h : c.recording <;>
    refine StepsMono.ofEq ?_ ?_ <;>
      simp [StepRecorderCore.resume_recording, h]

theorem stepsMono_tick (c : StepRecorderCore) (now : Nat) :
    StepsMono c (c.timer_tick now) := by
  by_cases h : (c.timer_running && c.recording && !c.paused) = true <;>
    refine StepsMono.ofEq ?_ ?_ <;>
      simp [StepRecorderCore.timer_tick, h]

theorem stepsMono_stop (c : StepRecorderCore) (now : Nat) :
    StepsMono c (c.stop_recording now).2 := by
  by_cases h : c.recording
  · refine (stepsMono_if_flush c (c.current_keystrokes ≠ []) now).trans
      (StepsMono.ofEq ?_ ?_) <;>
      simp only [StepRecorderCore.stop_recording, h, Bool.not_true,
        Bool.false_eq_true, if_false] <;>
      (cases hst : (if c.current_keystrokes ≠ []
          then c.record_keystroke_group now else c).session.start_time <;>
        simp [hst])
  · refine StepsMono.ofEq ?_ ?_ <;>
      simp [StepRecorderCore.stop_recording, h]

theorem stepsMono_stepEvent (c : StepRecorderCore) (e : REvent) :
    StepsMono c (stepEvent c e) := by
  cases e with
  | click x y b now => exact stepsMono_on_click c x y b true now
  | key k now => exact stepsMono_on_key_release c k now
  | note t now => exact stepsMono_add_note c t now
  | processQueue now => exact stepsMono_process_queue c now
  | pause => exact stepsMono_pause c
  | resume => exact stepsMono_resume c
  | stop now => exact stepsMono_stop c now
  | tick now => exact stepsMono_tick c now

theorem stepsMono_run (c : StepRecorderCore) (evs : List REvent) :
    StepsMono c (run c evs) := by
  induction evs generalizing c with
  | nil => exact StepsMono.refl c
  | cons e rest ih =>
    exact (stepsMono_stepEvent c e).trans (ih (stepEvent c e))

/-- A freshly started recorder, used as a concrete base state below. -/
def startedCore : StepRecorderCore :=
  (StepRecorderCore.init.start_recording 0 true).2

/-- A started recorder in which one key release has arrived, so a
keystroke group is open. -/
def coreWithOpenGroup : StepRecorderCore :=
  run startedCore [.key (.char 'a') 0]

/-- C1: for every sequence of recorded operations in a single recording
session (clicks, key releases and the keystroke-group flushes they cause,
queue processing, notes, pause and resume, timer ticks, stop), the
`step_number` fields of the steps appended to the session are exactly
`1..N` in order — strictly increasing by 1 from 1, with no gaps and no
duplicates — where `N` is the number of steps produced. -/
theorem step_numbers_are_one_to_N (c : StepRecorderCore) (now : Nat)
    (evs : List REvent) (h : c.recording = false) :
    ((run (c.start_recording now true).2 evs).session.steps.map
        StepData.step_number)
      = List.range' 1
          (run (c.start_recording now true).2 evs).session.steps.length :=
  (Inv_run (Inv_start h now true) evs).nums

/-- Witness for C1: a concrete session with a click, a keystroke group and
a note receives step numbers `1..N` exactly. -/
theorem step_numbers_are_one_to_N_witness :
    ((run (StepRecorderCore.init.start_recording 0 true).2
        [.click 1 2 "Button.left" 3, .processQueue 4, .key (.char 'a') 10,
         .note "memo" 12, .stop 2000]).session.steps.map
        StepData.step_number)
      = List.range' 1
          (run (StepRecorderCore.init.start_recording 0 true).2
            [.click 1 2 "Button.left" 3, .processQueue 4, .key (.char 'a') 10,
             .note "memo" 12, .stop 2000]).session.steps.length :=
  step_numbers_are_one_to_N StepRecorderCore.init 0
    [.click 1 2 "Button.left" 3, .processQueue 4, .key (.char 'a') 10,
     .note "memo" 12, .stop 2000] rfl

/-- C2: when a mouse click arrives while a keystroke group is open (while
recording and not paused), `_on_click` first appends the flushed group as
its own step and only then enqueues the click; every step recorded
afterwards — in particular the step for that click, recorded when the
queue is processed — carries a strictly larger step number than the
flushed group's step. -/
theorem flushed_group_precedes_click (c : StepRecorderCore) (x y : Int)
    (b : String) (now : Nat) (evs : List REvent)
    (hrec : c.recording = true) (hp : c.paused = false)
    (hk : c.current_keystrokes ≠ []) :
    ∃ flush rest,
      (c.on_click x y b true now).session.steps
        = c.session.steps ++ [flush] ∧
      flush.type = StepType.keystroke ∧
      flush.step_number = c.step + 1 ∧
      (c.on_click x y b true now).queue = c.queue ++ [⟨x, y, b⟩] ∧
      (run (c.on_click x y b true now) evs).session.steps
        = (c.on_click x y b true now).session.steps ++ rest ∧
      ∀ s ∈ rest, flush.step_number < s.step_number := by
  have hguard : (true && c.recording && !c.paused) = true := by
    simp [hrec, hp]
  have hstep : (c.on_click x y b true now).step = c.step + 1 := by
    simp [StepRecorderCore.on_click, hguard, hrec, hp, hk,
      StepRecorderCore.record_keystroke_group,
      StepRecorderCore.record_keystroke_group_capture]
  obtain ⟨hle, rest, heq, hmem⟩ := stepsMono_run (c.on_click x y b true now) evs
  refine ⟨⟨c.step + 1, now, .keystroke,
    keystrokes_to_text c.current_keystrokes, get_active_window_title,
    some (capturePath (c.step + 1)), some c.last_click, none,
    c.current_keystrokes.map pyStrKey⟩, rest, ?_, rfl, rfl, ?_, heq, ?_⟩
  · simp [StepRecorderCore.on_click, hguard, hrec, hp, hk,
      StepRecorderCore.record_keystroke_group,
      StepRecorderCore.record_keystroke_group_capture]
  · simp [StepRecorderCore.on_click, hguard, hrec, hp, hk,
      StepRecorderCore.record_keystroke_group,
      StepRecorderCore.record_keystroke_group_capture]
  · intro s hs
    have h1 := hmem s hs
    rw [hstep] at h1
    exact h1

/-- Witness for C2: in a concrete state with the open group `['a']`, the
click at (5,6) is preceded by the flushed keystroke step. -/
theorem flushed_group_precedes_click_witness :
    ∃ flush rest,
      (coreWithOpenGroup.on_click 5 6 "Button.left" true 100).session.steps
        = coreWithOpenGroup.session.steps ++ [flush] ∧
      flush.type = StepType.keystroke ∧
      flush.step_number = coreWithOpenGroup.step + 1 ∧
      (coreWithOpenGroup.on_click 5 6 "Button.left" true 100).queue
        = coreWithOpenGroup.queue ++ [⟨5, 6, "Button.left"⟩] ∧
      (run (coreWithOpenGroup.on_click 5 6 "Button.left" true 100)
          [.processQueue 100]).session.steps
        = (coreWithOpenGroup.on_click 5 6 "Button.left" true 100).session.steps
            ++ rest ∧
      ∀ s ∈ rest, flush.step_number < s.step_number := by
  have h := flushed_group_precedes_click coreWithOpenGroup 5 6 "Button.left"
    100 [.processQueue 100] rfl rfl (by decide)
  exact h

/-- C9 (amended): after every in-session operation sequence the statistics
agree with the step list — `total_steps` is the number of steps, `clicks`
counts the click steps, `notes` counts the note steps, and `keystrokes`
equals the total number of individual key events carried by the
keystroke-group steps (not the number of groups, which is where the
original claim fails). -/
theorem statistics_agree_with_steps (c : StepRecorderCore) (now : Nat)
    (evs : List REvent) (h : c.recording = false) :
    (run (c.start_recording now true).2 evs).session.statistics.total_steps
      = (run (c.start_recording now true).2 evs).session.steps.length ∧
    (run (c.start_recording now true).2 evs).session.statistics.clicks
      = countType .click (run (c.start_recording now true).2 evs).session.steps ∧
    (run (c.start_recording now true).2 evs).session.statistics.notes
      = countType .note (run (c.start_recording now true).2 evs).session.steps ∧
    (run (c.start_recording now true).2 evs).session.statistics.keystrokes
      = keyEventsInGroups (run (c.start_recording now true).2 evs).session.steps := by
  have hInv := Inv_run (Inv_start h now true) evs
  exact ⟨hInv.total, hInv.clicksEq, hInv.notesEq, hInv.keysEq⟩

/-- Witness for C9 at a concrete run with one click, one two-key group and
one note. -/
theorem statistics_agree_with_steps_witness :
    (run (StepRecorderCore.init.start_recording 0 true).2
        [.click 1 2 "Button.left" 3, .processQueue 4, .key (.char 'a') 10,
         .key (.char 'b') 20, .note "memo" 25, .stop 2000]).session.statistics.total_steps
      = (run (StepRecorderCore.init.start_recording 0 true).2
          [.click 1 2 "Button.left" 3, .processQueue 4, .key (.char 'a') 10,
           .key (.char 'b') 20, .note "memo" 25, .stop 2000]).session.steps.length ∧
    (run (StepRecorderCore.init.start_recording 0 true).2
        [.click 1 2 "Button.left" 3, .processQueue 4, .key (.char 'a') 10,
         .key (.char 'b') 20, .note "memo" 25, .stop 2000]).session.statistics.clicks
      = countType .click (run (StepRecorderCore.init.start_recording 0 true).2
          [.click 1 2 "Button.left" 3, .processQueue 4, .key (.char 'a') 10,
           .key (.char 'b') 20, .note "memo" 25, .stop 2000]).session.steps ∧
    (run (StepRecorderCore.init.start_recording 0 true).2
        [.click 1 2 "Button.left" 3, .processQueue 4, .key (.char 'a') 10,
         .key (.char 'b') 20, .note "memo" 25, .stop 2000]).session.statistics.notes
      = countType .note (run (StepRecorderCore.init.start_recording 0 true).2
          [.click 1 2 "Button.left" 3, .processQueue 4, .key (.char 'a') 10,
           .key (.char 'b') 20, .note "memo" 25, .stop 2000]).session.steps ∧
    (run (StepRecorderCore.init.start_recording 0 true).2
        [.click 1 2 "Button.left" 3, .processQueue 4, .key (.char 'a') 10,
         .key (.char 'b') 20, .note "memo" 25, .stop 2000]).session.statistics.keystrokes
      = keyEventsInGroups (run (StepRecorderCore.init.start_recording 0 true).2
          [.click 1 2 "Button.left" 3, .processQueue 4, .key (.char 'a') 10,
           .key (.char 'b') 20, .note "memo" 25, .stop 2000]).session.steps :=
  statistics_agree_with_steps StepRecorderCore.init 0
    [.click 1 2 "Button.left" 3, .processQueue 4, .key (.char 'a') 10,
     .key (.char 'b') 20, .note "memo" 25, .stop 2000] rfl

/-- C9 fails as stated: a single flushed group of two keystrokes makes the
`keystrokes` statistic 2 while there is exactly one keystroke-group step,
so the statistic counts key events, not groups. -/
theorem keystroke_statistic_counts_events_not_groups :
    (run (StepRecorderCore.init.start_recording 0 true).2
      [.key (.char 'a') 0, .key (.char 'b') 10,
       .stop 2000]).session.statistics.keystrokes = 2 ∧
    countType .keystroke (run (StepRecorderCore.init.start_recording 0 true).2
      [.key (.char 'a') 0, .key (.char 'b') 10, .stop 2000]).session.steps = 1 ∧
    (2 : Nat) ≠ 1 :=
  ⟨rfl, rfl, by decide⟩

/-- C3: the code contradicts the claim — in `recorder_core.py` the timer
loop only refreshes the duration statistic and never flushes an idle
keystroke group.  After a key release at time 0 and a timer iteration at
time 5000, far past the 1000-unit grouping threshold, the group `['a']`
is still open, no step has been recorded, and only the duration was
updated. -/
theorem timer_tick_does_not_flush :
    (run startedCore [.key (.char 'a') 0, .tick 5000]).current_keystrokes
      = [PyKey.char 'a'] ∧
    (run startedCore [.key (.char 'a') 0, .tick 5000]).session.steps = [] ∧
    (run startedCore [.key (.char 'a') 0,
      .tick 5000]).session.statistics.recording_duration = 5000 :=
  ⟨rfl, rfl, rfl⟩

/-- C4 fails as stated: starting at 0, with the timer last firing at 10,
pausing, resuming and stopping at 30, the stored duration is the full
span 30, not (10 - 0) + (30 - 20) = 20. -/
theorem duration_excludes_pause_cex :
    (run startedCore [.tick 10, .pause, .resume,
      .stop 30]).session.statistics.recording_duration = 30 ∧
    (10 - 0) + (30 - 20) = 20 ∧ (30 : Nat) ≠ 20 :=
  ⟨rfl, rfl, by decide⟩

/-- C4 (amended): pauses are not excluded — the duration stored at stop is
the full wall-clock span `t3 - start`; while paused,
`get_recording_duration` reports the value last written by the timer,
`t1 - start` when the last tick ran at `t1`. -/
theorem duration_includes_paused_interval (c : StepRecorderCore)
    (t0 t1 t2 t3 : Nat) (h : c.recording = false) :
    (run (c.start_recording t0 true).2
        [.tick t1, .pause, .resume, .stop t3]).session.statistics.recording_duration
      = t3 - t0 ∧
    (run (c.start_recording t0 true).2
        [.tick t1, .pause]).get_recording_duration t2 = t1 - t0 := by
  by_cases hk : c.current_keystrokes = [] <;>
    refine ⟨?_, ?_⟩ <;>
      simp [run, stepEvent, StepRecorderCore.start_recording, h,
        StepRecorderCore.timer_tick, StepRecorderCore.pause_recording,
        StepRecorderCore.resume_recording, StepRecorderCore.stop_recording,
        StepRecorderCore.get_recording_duration,
        StepRecorderCore.record_keystroke_group,
        StepRecorderCore.record_keystroke_group_capture,
        RecordingSession.init, Statistics.init, hk]

/-- Witness for C4 (amended) at start 0, tick 10, pause, resume, stop 30. -/
theorem duration_includes_paused_interval_witness :
    (run (StepRecorderCore.init.start_recording 0 true).2
        [.tick 10, .pause, .resume, .stop 30]).session.statistics.recording_duration
      = 30 - 0 ∧
    (run (StepRecorderCore.init.start_recording 0 true).2
        [.tick 10, .pause]).get_recording_duration 20 = 10 - 0 :=
  duration_includes_paused_interval StepRecorderCore.init 0 10 20 30 rfl

/-- True exactly on the exception branch of an `Except`-modelled call. -/
def raised {α β : Type} : Except α β → Bool
  | .error _ => true
  | .ok _ => false

/-- The recorder state carried on either branch of an `Except`-modelled
call (mutations made before a raise persist, as they do on `self`). -/
def exceptState : Except StepRecorderCore StepRecorderCore → StepRecorderCore
  | .error c => c
  | .ok c => c

/-- C5 fails as stated: when the screen grab raises during
`_record_click`, the exception propagates out of step recording and no
step is appended — in particular no step with a null screenshot reference
— although the step counter and the click statistics were already
incremented. -/
theorem capture_failure_cex :
    raised (startedCore.record_click_capture 5 5 "Button.left" 7
      (.error ())) = true ∧
    (exceptState (startedCore.record_click_capture 5 5 "Button.left" 7
      (.error ()))).session.steps = [] ∧
    (exceptState (startedCore.record_click_capture 5 5 "Button.left" 7
      (.error ()))).step = 1 ∧
    (exceptState (startedCore.record_click_capture 5 5 "Button.left" 7
      (.error ()))).session.statistics.clicks = 1 :=
  ⟨rfl, rfl, rfl, rfl⟩

/-- C5 (amended): a failing capture makes `_record_click` and
`_record_keystroke_group` raise: the exception propagates and the step is
not appended (there is no null-screenshot step), while the step counter
and the per-kind statistics have already been incremented, so the state is
left with counters ahead of the step list. -/
theorem capture_failure_propagates (c : StepRecorderCore) (x y : Int)
    (b : String) (now : Nat) :
    c.record_click_capture x y b now (.error ()) = .error
      { c with step := c.step + 1,
               session := { c.session with statistics :=
                 { c.session.statistics with
                   total_steps := c.session.statistics.total_steps + 1,
                   clicks := c.session.statistics.clicks + 1 } } } ∧
    (c.current_keystrokes ≠ [] →
      c.record_keystroke_group_capture now (.error ()) = .error
        { c with step := c.step + 1,
                 session := { c.session with statistics :=
                   { c.session.statistics with
                     total_steps := c.session.statistics.total_steps + 1,
                     keystrokes := c.session.statistics.keystrokes
                       + c.current_keystrokes.length } } }) := by
  refine ⟨rfl, fun hk => ?_⟩
  simp [StepRecorderCore.record_keystroke_group_capture, hk]

/-- Witness for C5 (amended) at a state with the open group `['a']`. -/
theorem capture_failure_propagates_witness :
    coreWithOpenGroup.record_keystroke_group_capture 9 (.error ()) = .error
      { coreWithOpenGroup with
          step := coreWithOpenGroup.step + 1,
          session := { coreWithOpenGroup.session with statistics :=
            { coreWithOpenGroup.session.statistics with
              total_steps :=
                coreWithOpenGroup.session.statistics.total_steps + 1,
              keystrokes := coreWithOpenGroup.session.statistics.keystrokes
                + coreWithOpenGroup.current_keystrokes.length } } } :=
  (capture_failure_propagates coreWithOpenGroup 0 0 "Button.left" 9).2
    (by decide)

/-- C6 fails as stated: with failing listeners, `start_recording` raises
(the `Except.error` branch) rather than returning a failure result to its
caller. -/
theorem start_failure_raises_cex :
    (StepRecorderCore.init.start_recording 0 false).1
      = Except.error "Failed to start listeners" :=
  rfl

/-- C6 (amended): when the listener adapter fails to start,
`start_recording` raises an exception — it does not return a failure
result — but before raising it resets `recording` to `False`, so the
recorder is not left in the Recording state. -/
theorem start_failure_leaves_idle (c : StepRecorderCore) (now : Nat)
    (h : c.recording = false) :
    (c.start_recording now false).1
      = Except.error "Failed to start listeners" ∧
    (c.start_recording now false).2.recording = false := by
  constructor <;> simp [StepRecorderCore.start_recording, h]

/-- Witness for C6 (amended) at the freshly constructed recorder. -/
theorem start_failure_leaves_idle_witness :
    (StepRecorderCore.init.start_recording 0 false).1
      = Except.error "Failed to start listeners" ∧
    (StepRecorderCore.init.start_recording 0 false).2.recording = false :=
  start_failure_leaves_idle StepRecorderCore.init 0 rfl

/-- C7 fails as stated: `add_note` does not flush the open keystroke group
— after a note in a state with the open group `['a']` the only appended
step is the note itself and the group is still open (it would be flushed
only later, after the note). -/
theorem add_note_does_not_flush_cex :
    ((coreWithOpenGroup.add_note "hello" 5).2.session.steps.map
        StepData.type) = [StepType.note] ∧
    (coreWithOpenGroup.add_note "hello" 5).2.current_keystrokes
      = [PyKey.char 'a'] :=
  ⟨rfl, rfl⟩

/-- C7 (amended): `add_note` while recording appends exactly one note
step with a null screenshot and increments the note counter by exactly
one, leaving any open keystroke group untouched rather than flushing it
first; the scenario start → add note "hello" → stop yields exactly one
note step with content "hello" and no screenshot. -/
theorem add_note_appends_note (c : StepRecorderCore) (text : String)
    (now : Nat) (h : c.recording = true) :
    (c.add_note text now).1 = true ∧
    (c.add_note text now).2.session.steps = c.session.steps ++
      [⟨c.step + 1, now, .note, text, get_active_window_title, none, none,
        none, []⟩] ∧
    (c.add_note text now).2.current_keystrokes = c.current_keystrokes ∧
    (c.add_note text now).2.session.statistics.notes
      = c.session.statistics.notes + 1 ∧
    ((run startedCore [.note "hello" 1, .stop 2]).session.steps.map
        (fun s => (s.type, s.content, s.screenshot)))
      = [(StepType.note, "hello", none)] := by
  refine ⟨?_, ?_, ?_, ?_, rfl⟩ <;> simp [StepRecorderCore.add_note, h]

/-- Witness for C7 (amended) at the freshly started recorder. -/
theorem add_note_appends_note_witness :
    (startedCore.add_note "hello" 1).1 = true ∧
    (startedCore.add_note "hello" 1).2.session.steps
      = startedCore.session.steps ++
      [⟨startedCore.step + 1, 1, .note, "hello", get_active_window_title,
        none, none, none, []⟩] ∧
    (startedCore.add_note "hello" 1).2.current_keystrokes
      = startedCore.current_keystrokes ∧
    (startedCore.add_note "hello" 1).2.session.statistics.notes
      = startedCore.session.statistics.notes + 1 ∧
    ((run startedCore [.note "hello" 1, .stop 2]).session.steps.map
        (fun s => (s.type, s.content, s.screenshot)))
      = [(StepType.note, "hello", none)] :=
  add_note_appends_note startedCore "hello" 1 rfl

/-- C8 fails as stated: the space key renders as the five-character token
"Space", not as a single space character, and a group consisting only of
recognised named keys renders as the concatenation of the names, not in
the "Pressed: <comma-joined names>" form. -/
theorem keystroke_text_cex :
    keystrokes_to_text [PyKey.char ' '] = "Space" ∧
    "Space" ≠ " " ∧
    keystrokes_to_text [PyKey.special "enter"] = "Enter" ∧
    "Enter" ≠ "Pressed: Enter" :=
  ⟨rfl, by decide, rfl, by decide⟩

/-- C8 (amended): printable non-space characters render literally; the
space key renders as the token "Space"; control keys render as named
tokens from the fixed lookup table and are concatenated into the text
alongside printable characters (not reported separately); the
"Pressed: <names>" fallback is unreachable, because whenever no rendered
name survives the filter no recognised special name occurs either, so a
group whose rendered names are all filtered out yields
"Special keys pressed" (for example a key of ordinal 19, whose rendered
name "Char(19)" is on the drop list). -/
theorem keystroke_text_amended :
    (∀ ch : Char, ch ≠ ' ' → pyIsPrintable ch = true →
      key_to_name (.char ch) = String.singleton ch) ∧
    key_to_name (.char ' ') = "Space" ∧
    key_to_name (.special "enter") = "Enter" ∧
    key_to_name (.special "tab") = "Tab" ∧
    key_to_name (.special "backspace") = "Backspace" ∧
    key_to_name (.special "up") = "Up Arrow" ∧
    key_to_name (.special "down") = "Down Arrow" ∧
    key_to_name (.special "left") = "Left Arrow" ∧
    key_to_name (.special "right") = "Right Arrow" ∧
    keystrokes_to_text [.char 'a', .special "enter", .char 'b'] = "aEnterb" ∧
    (∀ ks : List PyKey, (ks.map key_to_name).filter keeps_name = [] →
      (ks.map key_to_name).filter (fun n => special_names.contains n) = []) ∧
    keystrokes_to_text [.char (Char.ofNat 19)] = "Special keys pressed" := by
  refine ⟨?_, rfl, rfl, rfl, rfl, rfl, rfl, rfl, rfl, rfl, ?_, rfl⟩
  · intro ch h1 h2
    simp [key_to_name, h1, h2]
  · intro ks hf
    rw [List.filter_eq_nil_iff] at hf ⊢
    intro n hn hmem
    have hspec : n = "Enter" ∨ n = "Space" ∨ n = "Tab" ∨ n = "Backspace"
        ∨ n = "Delete" ∨ n = "Escape" := by
      simpa [special_names] using hmem
    have hk : keeps_name n = true := by
      rcases hspec with rfl | rfl | rfl | rfl | rfl | rfl <;> decide
    exact hf n hn hk

/-- Witness for C8 (amended): the printable-character clause at 'a' and
the unreachability clause at the dropped name "Char(19)". -/
theorem keystroke_text_amended_witness :
    key_to_name (PyKey.char 'a') = String.singleton 'a' ∧
    (([PyKey.char (Char.ofNat 19)].map key_to_name).filter
        (fun n => special_names.contains n)) = [] :=
  ⟨keystroke_text_amended.1 'a' (by decide) (by decide),
   keystroke_text_amended.2.2.2.2.2.2.2.2.2.2.1
     [PyKey.char (Char.ofNat 19)] rfl⟩

/-- C10: every public mutating operation invoked while no recording is in
progress — pause, resume, add_note and stop — returns `False` and leaves
the entire recorder state (step counter, step list, statistics and all
other fields) exactly as it was. -/
theorem mutators_noop_when_idle (c : StepRecorderCore) (text : String)
    (now : Nat) (h : c.recording = false) :
    c.pause_recording = (false, c) ∧
    c.resume_recording = (false, c) ∧
    c.add_note text now = (false, c) ∧
    c.stop_recording now = (false, c) := by
  refine ⟨?_, ?_, ?_, ?_⟩ <;>
    simp [StepRecorderCore.pause_recording, StepRecorderCore.resume_recording,
      StepRecorderCore.add_note, StepRecorderCore.stop_recording, h]

/-- Witness for C10 at the freshly constructed (idle) recorder. -/
theorem mutators_noop_when_idle_witness :
    StepRecorderCore.init.pause_recording = (false, StepRecorderCore.init) ∧
    StepRecorderCore.init.resume_recording = (false, StepRecorderCore.init) ∧
    StepRecorderCore.init.add_note "x" 1 = (false, StepRecorderCore.init) ∧
    StepRecorderCore.init.stop_recording 1 = (false, StepRecorderCore.init) :=
  mutators_noop_when_idle StepRecorderCore.init "x" 1 rfl

end RecorderCore
